import Mathlib

/-!
Verification development for pyscript-to-package: a shallow embedding of
src/pyscript_to_package/main.py. TOML documents are modelled as ordered
association lists (tomlkit preserves key order; setting an existing key
replaces its value in place, a new key is appended at the end). The
filesystem is modelled as an association list from path strings to file
contents plus a list of directories; external tools (uv, git) are an
oracle giving each invocation an exit code and a filesystem effect, and
subprocess.run(check=True) is a function that returns an error on any
nonzero exit code. Python exceptions are modelled with Except.
-/

namespace P2P

/-- A TOML value: a string, an array, or a table (ordered key-value list). -/
inductive Toml where
  | str (s : String)
  | arr (xs : List Toml)
  | table (kvs : List (String × Toml))

/-- A TOML document is a top-level table. -/
def TomlTable := List (String × Toml)

/-- Lookup in an ordered association list (first match). -/
def alookup {α : Type} : List (String × α) → String → Option α
  | [], _ => none
  | (k1, v) :: rest, k => if k1 = k then some v else alookup rest k

/-- Set a key in an ordered association list: replace the first occurrence
in place, or append at the end when the key is absent (tomlkit order). -/
def aset {α : Type} : List (String × α) → String → α → List (String × α)
  | [], k, v => [(k, v)]
  | (k1, v1) :: rest, k, v =>
      if k1 = k then (k, v) :: rest else (k1, v1) :: aset rest k v

/-- Remove a key from an association list (all occurrences). -/
def aerase {α : Type} : List (String × α) → String → List (String × α)
  | [], _ => []
  | (k1, v1) :: rest, k =>
      if k1 = k then aerase rest k else (k1, v1) :: aerase rest k

/-- Python exceptions and subprocess failures that the tool can raise. -/
inductive Cmd where
  | uvInitPkg (dir : String)
  | uvInitUmbrella (dir : String)
  | gitInit (dir : String)
  | gitAdd (dir : String)
  | gitCommit (dir : String)
deriving DecidableEq

/-- Python-level failures: subprocess.CalledProcessError from check=True,
FileNotFoundError, FileExistsError, KeyError, AttributeError, TypeError,
and io.UnsupportedOperation. -/
inductive PyErr where
  | calledProcessError (c : Cmd) (code : Nat)
  | fileNotFoundError (path : String)
  | fileExistsError (path : String)
  | keyError (key : String)
  | attributeError
  | typeError
  | unsupportedOperation
deriving DecidableEq

/-- File contents: plain text, or a parsed TOML manifest (tomlkit documents
are read and written whole, so manifests are stored in parsed form). -/
inductive File where
  | text (s : String)
  | toml (doc : List (String × Toml))

/-- The filesystem: files keyed by path string, plus directories.  Paths are
relative to the working directory of the run. -/
structure FS where
  files : List (String × File)
  dirs : List String

/-- Lookup a file by path. -/
def fileLookup (fs : FS) (p : String) : Option File :=
  alookup fs.files p

/-- Path.exists: true for files and for directories. -/
def fsExists (fs : FS) (p : String) : Bool :=
  (fileLookup fs p).isSome || fs.dirs.contains p

/-- Write a file (create or overwrite). -/
def writeFile (fs : FS) (p : String) (f : File) : FS :=
  { fs with files := aset fs.files p f }

/-- Path.unlink(missing_ok=True): remove a file, no error when absent. -/
def unlinkFile (fs : FS) (p : String) : FS :=
  { fs with files := aerase fs.files p }

/-- Path.mkdir(parents=True, exist_ok=True): exist_ok only suppresses the
error when the existing target is a directory; a file at the target path
still raises FileExistsError.  Intermediate parents are elided (nothing in
the program consults them). -/
def pyMkdirParents (fs : FS) (p : String) : Except PyErr FS :=
  if (fileLookup fs p).isSome then .error (.fileExistsError p)
  else if fs.dirs.contains p then .ok fs
  else .ok { fs with dirs := p :: fs.dirs }

/-- Path.read_text / open(p).read on a text file; a missing file raises
FileNotFoundError.  Manifests are stored parsed, so reading one as text is
not exercised by the program and yields the empty string. -/
def pyReadText (fs : FS) (p : String) : Except PyErr String :=
  match fileLookup fs p with
  | some (File.text s) => .ok s
  | some (File.toml _) => .ok ""
  | none => .error (.fileNotFoundError p)

/-- tomlkit.load on an opened file: the manifest must exist; a stored text
blob at a manifest path models an unparseable document. -/
def readTomlFile (fs : FS) (p : String) : Except PyErr TomlTable :=
  match fileLookup fs p with
  | some (File.toml d) => .ok d
  | some (File.text _) => .error .typeError
  | none => .error (.fileNotFoundError p)

/-- External tool invocations: exit code and filesystem effect of each. -/
structure Oracle where
  exitCode : Cmd → Nat
  effect : Cmd → FS → FS

/-- subprocess.run([...], check=True): on exit code zero apply the external
effect, on a nonzero exit code raise CalledProcessError. -/
def runCheck (orc : Oracle) (c : Cmd) (fs : FS) : Except PyErr FS :=
  if orc.exitCode c = 0 then .ok (orc.effect c fs)
  else .error (.calledProcessError c (orc.exitCode c))

/-- Split a character list at every occurrence of a separator character. -/
def splitCharAux (sep : Char) : List Char → List (List Char)
  | [] => [[]]
  | a :: as =>
      match splitCharAux sep as with
      | [] => [[]]
      | cur :: rest =>
          if a = sep then [] :: cur :: rest else (a :: cur) :: rest

/-- pathlib name: the last path component, with empty and dot components
dropped as pathlib does when parsing. -/
def pathName (p : String) : String :=
  ((((splitCharAux '/' p.data).map String.mk).filter
      (fun s => !(s == "") && !(s == "."))).getLast?).getD ""

/-- Index of the last dot in a character list, if any. -/
def rfindDot : List Char → Option Nat
  | [] => none
  | a :: as =>
      match rfindDot as with
      | some i => some (i + 1)
      | none => if a = '.' then some 0 else none

/-- pathlib stem: the name up to the last dot, kept whole when the last dot
is absent, leading, or trailing. -/
def pyStem (name : String) : String :=
  match rfindDot name.data with
  | none => name
  | some i =>
      if 0 < i ∧ i < name.data.length - 1 then String.mk (name.data.take i)
      else name

/-- str.replace for single-character arguments: replace every occurrence of
one character by another. -/
def pyReplaceChar (s : String) (a b : Char) : String :=
  String.mk (s.data.map (fun c => if c = a then b else c))

/-- get_pkg_name: Python modules must use underscores. -/
def get_pkg_name (script_path : String) : String :=
  pyReplaceChar (pyStem (pathName script_path)) '-' '_'

/-- get_bin_name: the CLI command name should match the filename exactly. -/
def get_bin_name (script_path : String) : String :=
  pyStem (pathName script_path)

/-- The left brace character. -/
def lbrace : Char := Char.ofNat 123

/-- The right brace character. -/
def rbrace : Char := Char.ofNat 125

/-- Substitute every occurrence of the repo placeholder by the given value. -/
def formatAux (v : List Char) : List Char → List Char
  | [] => []
  | c0 :: c1 :: c2 :: c3 :: c4 :: c5 :: rest2 =>
      if c0 = lbrace ∧ c1 = 'r' ∧ c2 = 'e' ∧ c3 = 'p' ∧ c4 = 'o' ∧ c5 = rbrace then
        v ++ formatAux v rest2
      else c0 :: formatAux v (c1 :: c2 :: c3 :: c4 :: c5 :: rest2)
  | c0 :: rest => c0 :: formatAux v rest

/-- giturl_pattern.format(repo=bin_name): str.format for a pattern whose
only replacement field is the repo placeholder. -/
def pyFormatRepo (pattern val : String) : String :=
  String.mk (formatAux val.data pattern.data)

/-- Membership test entry not in deps on a Python list of tomlkit items:
a string item compares equal to the entry exactly when the text matches;
items of other types compare unequal. -/
def strMem (entry : String) (deps : List Toml) : Bool :=
  deps.any (fun d =>
    match d with
    | Toml.str s => entry == s
    | _ => false)

/-- data.get(key, default) for the project table: an absent key yields the
empty table, a non-table value has no .get attribute (AttributeError). -/
def projGet (doc : TomlTable) : Except PyErr TomlTable :=
  match alookup doc "project" with
  | none => .ok []
  | some (Toml.table t) => .ok t
  | some _ => .error .attributeError

/-- .get of the dependency list with default empty; list operations on a
non-list value fail. -/
def depsGet (pj : TomlTable) : Except PyErr (List Toml) :=
  match alookup pj "dependencies" with
  | none => .ok []
  | some (Toml.arr xs) => .ok xs
  | some _ => .error .typeError

/-- Lines 40-45 of main.py: read the dependency list (defaults to empty),
and append the composed entry only when it is not already a member; the
write-back assignment indexes the project table, so a missing project key
raises KeyError there. -/
def deps_phase (doc : TomlTable) (entry : String) : Except PyErr TomlTable :=
  match projGet doc with
  | .error e => .error e
  | .ok pj =>
      match depsGet pj with
      | .error e => .error e
      | .ok deps =>
          if strMem entry deps then .ok doc
          else
            match alookup doc "project" with
            | some (Toml.table t) =>
                .ok (aset doc "project"
                  (Toml.table (aset t "dependencies"
                    (Toml.arr (deps ++ [Toml.str entry])))))
            | some _ => .error .typeError
            | none => .error (.keyError "project")

/-- Ensure a scripts mapping exists in the project table. -/
def scriptsEnsure (pj : TomlTable) : TomlTable :=
  if (alookup pj "scripts").isSome then pj
  else aset pj "scripts" (Toml.table [])

/-- Lines 48-52 and 128-130 of main.py (the two copies are identical): make
sure project.scripts exists, then unconditionally set the command name to
the computed entry-point target. -/
def scripts_phase (doc : TomlTable) (pkg_name bin_name : String) :
    Except PyErr TomlTable :=
  match alookup doc "project" with
  | none => .error (.keyError "project")
  | some (Toml.table pj) =>
      match alookup (scriptsEnsure pj) "scripts" with
      | some (Toml.table scr) =>
          .ok (aset doc "project"
            (Toml.table (aset (scriptsEnsure pj) "scripts"
              (Toml.table (aset scr bin_name
                (Toml.str (pkg_name ++ ".main:main")))))))
      | some _ => .error .typeError
      | none => .error .typeError
  | some _ => .error .typeError

/-- update_umbrella_deps_bin, document level: the dependency step followed
by the entry-point step, as performed on the loaded document. -/
def update_umbrella_deps_bin_doc (doc : TomlTable)
    (pkg_name bin_name git_url : String) : Except PyErr TomlTable :=
  match deps_phase doc (pkg_name ++ " @ " ++ git_url) with
  | .error e => .error e
  | .ok doc1 => scripts_phase doc1 pkg_name bin_name

/-- update_umbrella_deps_bin, file level: load the manifest, update the
document, and write it back; the final write (lines 54-55) is outside any
conditional, so the returned flag recording whether the file was written
back is always true on success. -/
def update_umbrella_deps_bin (fs : FS)
    (pyproject_path pkg_name bin_name git_url : String) :
    Except PyErr (FS × Bool) :=
  match readTomlFile fs pyproject_path with
  | .error e => .error e
  | .ok doc =>
      match update_umbrella_deps_bin_doc doc pkg_name bin_name git_url with
      | .error e => .error e
      | .ok d => .ok (writeFile fs pyproject_path (File.toml d), true)

/-- The readme value set into the local manifest (lines 122-125). -/
def readmeVal : Toml :=
  Toml.table [("file", Toml.str "README.org"), ("content-type", Toml.str "text/org")]

/-- Lines 122-125 of main.py: set project.readme in the local manifest;
indexing a missing project key raises KeyError. -/
def readme_phase (doc : TomlTable) : Except PyErr TomlTable :=
  match alookup doc "project" with
  | none => .error (.keyError "project")
  | some (Toml.table pj) => .ok (aset doc "project" (Toml.table (aset pj "readme" readmeVal)))
  | some _ => .error .typeError

/-- Lines 118-133 of main.py on the loaded local manifest: set the readme
field, then set the entry point for the command name. -/
def update_local_manifest (doc : TomlTable) (pkg_name bin_name : String) :
    Except PyErr TomlTable :=
  match readme_phase doc with
  | .error e => .error e
  | .ok d => scripts_phase d pkg_name bin_name

/-- The project table of a document, when present as a table. -/
def projOf (doc : TomlTable) : Option TomlTable :=
  match alookup doc "project" with
  | some (Toml.table t) => some t
  | _ => none

/-- A key of the project table. -/
def projLookup (doc : TomlTable) (k : String) : Option Toml :=
  (projOf doc).bind (fun pj => alookup pj k)

/-- The dependency list of a document, defaulting to empty. -/
def depsOf (doc : TomlTable) : List Toml :=
  match projLookup doc "dependencies" with
  | some (Toml.arr xs) => xs
  | _ => []

/-- The entry-point mapping entry of a command name, when present. -/
def scriptsLookup (doc : TomlTable) (b : String) : Option Toml :=
  match projLookup doc "scripts" with
  | some (Toml.table scr) => alookup scr b
  | _ => none

/-- Boolean infix (substring) test on character lists. -/
def listInfix (pat : List Char) : List Char → Bool
  | [] => pat.isEmpty
  | c :: t => pat.isPrefixOf (c :: t) || listInfix pat t

/-- The Python substring test pat in s. -/
def containsSub (pat s : String) : Bool :=
  listInfix pat.data s.data

/-- str.splitlines for newline-terminated text: split at every newline, and
drop the trailing empty piece a final newline would produce; the empty
string has no lines. -/
def pySplitlines (s : String) : List String :=
  if s.data = [] then []
  else
    let parts := (splitCharAux '\n' s.data).map String.mk
    if parts.getLast? = some "" then parts.dropLast else parts

/-- str.join with a newline separator. -/
def joinLines : List String → String
  | [] => ""
  | [l] => l
  | l :: rest => l ++ "\n" ++ joinLines rest

/-- Lines 106-107 of main.py: indent every line of the script by four
spaces under a def main() header, and add the main guard. -/
def wrapMain (content : String) : String :=
  let indented := joinLines ((pySplitlines content).map (fun line => "    " ++ line))
  "def main():\n" ++ indented ++ "\n\nif __name__ == \x27__main__\x27:\n    main()"

/-- Lines 100-108 of main.py: when main.py is absent, write the script text
verbatim when it mentions def main(), wrapped otherwise; an existing
main.py is left alone. -/
def setup_main_py (fs : FS) (script_path main_py : String) : Except PyErr FS :=
  if fsExists fs main_py then .ok fs
  else
    match pyReadText fs script_path with
    | .error e => .error e
    | .ok content =>
        let content :=
          if containsSub "def main()" content then content else wrapMain content
        .ok (writeFile fs main_py (File.text content))

/-- Lines 110-114 of main.py: always delete README.md, then write a fresh
README.org only when one is absent. -/
def handle_readme (fs : FS) (pkg_dir bin_name script_name : String) : FS :=
  let fs := unlinkFile fs (pkg_dir ++ "/README.md")
  let readme_org := pkg_dir ++ "/README.org"
  if fsExists fs readme_org then fs
  else
    writeFile fs readme_org
      (File.text ("* " ++ bin_name ++ "\n\nMigrated from `" ++ script_name ++ "`"))

/-- Lines 139-143 of main.py.  When .gitignore is absent the code opens it
with open() in the default read mode, so the open itself raises
FileNotFoundError; were the open to succeed, f.write on a read-mode handle
would raise io.UnsupportedOperation, and only then would git add and git
commit run. -/
def gitignore_step (orc : Oracle) (fs : FS) (pkg_dir : String) : Except PyErr FS :=
  if fsExists fs (pkg_dir ++ "/.gitignore") then .ok fs
  else
    match pyReadText fs (pkg_dir ++ "/.gitignore") with
    | .error e => .error e
    | .ok _ =>
        match (Except.error PyErr.unsupportedOperation : Except PyErr Unit) with
        | .error e => .error e
        | .ok _ =>
            match runCheck orc (Cmd.gitAdd pkg_dir) fs with
            | .error e => .error e
            | .ok fs => runCheck orc (Cmd.gitCommit pkg_dir) fs

/-- setup_umbrella (lines 24-33): initialize the umbrella package when its
directory does not exist, and return the umbrella manifest path. -/
def setup_umbrella (orc : Oracle) (fs : FS) (path : String) :
    Except PyErr (FS × String) :=
  if fsExists fs path then .ok (fs, path ++ "/pyproject.toml")
  else
    match runCheck orc (Cmd.uvInitUmbrella path) fs with
    | .error e => .error e
    | .ok fs2 => .ok (fs2, path ++ "/pyproject.toml")

/-- The body of the per-script loop of migrate (lines 83-149), over the
modelled filesystem; paths are relative to the working directory. -/
def migrate_one (register : Option String) (giturl_pattern : String)
    (orc : Oracle) (fs : FS) (script : String) : Except PyErr FS := do
  let bin_name := get_bin_name script
  let pkg_name := get_pkg_name script
  let pkg_dir := bin_name
  -- 1. create package directory (skipped when it exists)
  let fs ← if fsExists fs pkg_dir then Except.ok fs
           else runCheck orc (Cmd.uvInitPkg pkg_dir) fs
  -- 2. src structure and main.py
  let src_dir := pkg_dir ++ "/src/" ++ pkg_name
  let fs ← pyMkdirParents fs src_dir
  let main_py := src_dir ++ "/main.py"
  let fs ← setup_main_py fs script main_py
  -- 3. README.org
  let fs := handle_readme fs pkg_dir bin_name (pathName script)
  -- 4. local pyproject.toml
  let pp_path := pkg_dir ++ "/pyproject.toml"
  let doc ← readTomlFile fs pp_path
  let doc ← update_local_manifest doc pkg_name bin_name
  let fs := writeFile fs pp_path (File.toml doc)
  -- 5. git init and .gitignore
  let fs ← if fsExists fs (pkg_dir ++ "/.git") then Except.ok fs
           else runCheck orc (Cmd.gitInit pkg_dir) fs
  let fs ← gitignore_step orc fs pkg_dir
  -- 6. optional umbrella registration
  match register with
  | none => Except.ok fs
  | some reg => do
      let (fs, umbrella_pp) ← setup_umbrella orc fs reg
      let git_url := pyFormatRepo giturl_pattern bin_name
      let (fs, _) ← update_umbrella_deps_bin fs umbrella_pp pkg_name bin_name git_url
      Except.ok fs

/-- The migrate command: the per-script loop over the input list. -/
def migrate_list (register : Option String) (giturl_pattern : String)
    (orc : Oracle) (fs : FS) : List String → Except PyErr FS
  | [] => .ok fs
  | s :: rest =>
      match migrate_one register giturl_pattern orc fs s with
      | .error e => .error e
      | .ok fs2 => migrate_list register giturl_pattern orc fs2 rest

/-- The umbrella-registration document update performed for one script
(lines 146-149 at document level): names derived from the script, the git
url from the pattern with the repo placeholder set to the command name. -/
def register_script (doc : TomlTable) (script giturl_pattern : String) :
    Except PyErr TomlTable :=
  update_umbrella_deps_bin_doc doc (get_pkg_name script) (get_bin_name script)
    (pyFormatRepo giturl_pattern (get_bin_name script))

/-- An oracle whose invocations all succeed without touching the files. -/
def orcAllOk : Oracle := { exitCode := fun _ => 0, effect := fun _ fs => fs }

/-- An oracle whose invocations all exit with status 1. -/
def orcAllFail : Oracle := { exitCode := fun _ => 1, effect := fun _ fs => fs }

/-- The empty filesystem. -/
def fsEmpty : FS := { files := [], dirs := [] }

/-- A minimal umbrella document holding only an empty project table. -/
def c1doc : TomlTable := [("project", Toml.table [])]

/-- The document produced by registering package t at url u into c1doc. -/
def c1res : TomlTable :=
  [("project", Toml.table [
    ("dependencies", Toml.arr [Toml.str "t @ u"]),
    ("scripts", Toml.table [("t", Toml.str "t.main:main")])])]

/-- A package directory fully scaffolded except for .gitignore: the
directory, src tree, main.py, README.org, manifest and .git all exist. -/
def fsBug : FS :=
  { files := [
      ("mytool/pyproject.toml",
        File.toml [("project", Toml.table [("name", Toml.str "mytool")])]),
      ("mytool/src/mytool/main.py", File.text "def main():\n    pass\n"),
      ("mytool/README.org", File.text "* mytool")],
    dirs := ["mytool", "mytool/src/mytool", "mytool/.git"] }

/-- A document whose scripts mapping already binds the command name. -/
def c4doc : TomlTable :=
  [("project", Toml.table [("scripts", Toml.table [("t", Toml.str "old.target:old")])])]

/-- The umbrella update of c4doc: the old binding is overwritten. -/
def c4res : TomlTable :=
  [("project", Toml.table [
    ("scripts", Toml.table [("t", Toml.str "t.main:main")]),
    ("dependencies", Toml.arr [Toml.str "t @ u"])])]

/-- The local-manifest update of c4doc: the old binding is overwritten. -/
def c4resL : TomlTable :=
  [("project", Toml.table [
    ("scripts", Toml.table [("t", Toml.str "t.main:main")]),
    ("readme", readmeVal)])]

/-- An umbrella document already holding the entry and the mapping. -/
def c5doc : TomlTable :=
  [("project", Toml.table [
    ("dependencies", Toml.arr [Toml.str "t @ u"]),
    ("scripts", Toml.table [("t", Toml.str "t.main:main")])])]

/-- A filesystem holding the already-registered umbrella manifest c5doc. -/
def c5fs : FS := { files := [("umb/pyproject.toml", File.toml c5doc)], dirs := ["umb"] }

/-- A fresh umbrella document without dependencies or scripts. -/
def c5doc2 : TomlTable := [("project", Toml.table [("name", Toml.str "umb")])]

/-- A filesystem holding the fresh umbrella manifest c5doc2. -/
def c5fs2 : FS := { files := [("u/pyproject.toml", File.toml c5doc2)], dirs := ["u"] }

/-- The document produced by registering package t at url u into c5doc2. -/
def c5doc2res : TomlTable :=
  [("project", Toml.table [
    ("name", Toml.str "umb"),
    ("dependencies", Toml.arr [Toml.str "t @ u"]),
    ("scripts", Toml.table [("t", Toml.str "t.main:main")])])]

/-- An umbrella document with unrelated keys at both levels. -/
def c6doc : TomlTable :=
  [("other", Toml.str "keep"),
   ("project", Toml.table [("name", Toml.str "umb"), ("extra", Toml.str "e")])]

/-- The update of c6doc: unrelated keys are untouched. -/
def c6res : TomlTable :=
  [("other", Toml.str "keep"),
   ("project", Toml.table [
     ("name", Toml.str "umb"),
     ("extra", Toml.str "e"),
     ("dependencies", Toml.arr [Toml.str "t @ u"]),
     ("scripts", Toml.table [("t", Toml.str "t.main:main")])])]

/-- A fresh umbrella document with an empty dependency list. -/
def c8doc : TomlTable :=
  [("project", Toml.table [("name", Toml.str "umb"), ("dependencies", Toml.arr [])])]

/-- c8doc after registering foo.py. -/
def c8d1 : TomlTable :=
  [("project", Toml.table [
    ("name", Toml.str "umb"),
    ("dependencies", Toml.arr [Toml.str "foo @ git+https://example.com/foo"]),
    ("scripts", Toml.table [("foo", Toml.str "foo.main:main")])])]

/-- c8d1 after registering bar.py. -/
def c8d2 : TomlTable :=
  [("project", Toml.table [
    ("name", Toml.str "umb"),
    ("dependencies", Toml.arr [
      Toml.str "foo @ git+https://example.com/foo",
      Toml.str "bar @ git+https://example.com/bar"]),
    ("scripts", Toml.table [
      ("foo", Toml.str "foo.main:main"),
      ("bar", Toml.str "bar.main:main")])])]

/-- A filesystem holding only a script with no main function. -/
def c9fs : FS := { files := [("tool.py", File.text "print(1)\nprint(2)\n")], dirs := [] }

/-- A filesystem where the target main.py already exists. -/
def c9fsE : FS :=
  { files := [("x/main.py", File.text "def main():\n    pass\n")], dirs := [] }

/-- A package directory with a stale README.md and no README.org. -/
def c10fs : FS := { files := [("p/README.md", File.text "old")], dirs := ["p"] }

/-- A package directory with both a stale README.md and a README.org. -/
def c10fsE : FS :=
  { files := [("q/README.md", File.text "old"), ("q/README.org", File.text "keep")],
    dirs := ["q"] }

theorem alookup_aset_self {α : Type} (l : List (String × α)) (k : String) (v : α) :
    alookup (aset l k v) k = some v := by
  induction l with
  | nil => simp [aset, alookup]
  | cons hd t ih =>
      obtain ⟨k1, v1⟩ := hd
      by_cases hk : k1 = k <;> simp [aset, alookup, hk, ih]

theorem alookup_aset_ne {α : Type} (l : List (String × α)) {k k2 : String} (v : α)
    (h : k2 ≠ k) : alookup (aset l k v) k2 = alookup l k2 := by
  induction l with
  | nil =>
      simp only [aset, alookup]
      rw [if_neg (Ne.symm h)]
  | cons hd t ih =>
      obtain ⟨k1, v1⟩ := hd
      by_cases hk : k1 = k
      · subst hk
        simp only [aset, if_pos rfl, alookup]
        rw [if_neg (Ne.symm h), if_neg (Ne.symm h)]
      · simp only [aset, if_neg hk, alookup]
        by_cases hk2 : k1 = k2
        · rw [if_pos hk2, if_pos hk2]
        · rw [if_neg hk2, if_neg hk2, ih]

theorem aset_eq_of_alookup {α : Type} (l : List (String × α)) (k : String) (v : α)
    (h : alookup l k = some v) : aset l k v = l := by
  induction l with
  | nil => simp [alookup] at h
  | cons hd t ih =>
      obtain ⟨k1, v1⟩ := hd
      by_cases hk : k1 = k
      · subst hk
        simp [alookup] at h
        simp [aset, h]
      · simp [alookup, hk] at h
        simp [aset, hk, ih h]

theorem alookup_aerase_self {α : Type} (l : List (String × α)) (k : String) :
    alookup (aerase l k) k = none := by
  induction l with
  | nil => simp [aerase, alookup]
  | cons hd t ih =>
      obtain ⟨k1, v1⟩ := hd
      by_cases hk : k1 = k <;> simp [aerase, alookup, hk, ih]

theorem alookup_aerase_ne {α : Type} (l : List (String × α)) {k k2 : String}
    (h : k2 ≠ k) : alookup (aerase l k) k2 = alookup l k2 := by
  induction l with
  | nil => simp [aerase]
  | cons hd t ih =>
      obtain ⟨k1, v1⟩ := hd
      by_cases hk : k1 = k
      · subst hk
        have hne : ¬ k1 = k2 := Ne.symm h
        simp [aerase, alookup, hne, ih]
      · simp only [aerase, if_neg hk, alookup]
        by_cases hk2 : k1 = k2
        · rw [if_pos hk2, if_pos hk2]
        · rw [if_neg hk2, if_neg hk2, ih]

theorem projGet_ok {doc : TomlTable} {pj : TomlTable} (h : projGet doc = .ok pj) :
    (alookup doc "project" = none ∧ pj = []) ∨
      alookup doc "project" = some (Toml.table pj) := by
  unfold projGet at h
  split at h <;> simp_all

theorem depsGet_none {pj : TomlTable} {xs : List Toml}
    (hd : alookup pj "dependencies" = none) (h : depsGet pj = .ok xs) : xs = [] := by
  simp [depsGet, hd] at h
  exact h

theorem depsOf_eq {doc pj : TomlTable} {xs : List Toml}
    (hp : alookup doc "project" = some (Toml.table pj))
    (h : depsGet pj = .ok xs) : depsOf doc = xs := by
  unfold depsOf projLookup projOf
  rw [hp]
  unfold depsGet at h
  split at h <;> simp_all

theorem strMem_append_self (e : String) (xs : List Toml) :
    strMem e (xs ++ [Toml.str e]) = true := by
  simp [strMem]

/-- Shape of a successful dependency step. -/
theorem deps_phase_ok {doc : TomlTable} {entry : String} {d : TomlTable}
    (h : deps_phase doc entry = .ok d) :
    ∃ pj xs, alookup doc "project" = some (Toml.table pj) ∧ depsGet pj = .ok xs ∧
      ((strMem entry xs = true ∧ d = doc) ∨
       (strMem entry xs = false ∧
        d = aset doc "project" (Toml.table (aset pj "dependencies"
              (Toml.arr (xs ++ [Toml.str entry])))))) := by
  unfold deps_phase at h
  split at h
  · simp at h
  · rename_i pj hpg
    split at h
    · simp at h
    · rename_i xs hdg
      rcases projGet_ok hpg with ⟨hnone, hpj⟩ | hsome
      · subst hpj
        have hxs : xs = [] := depsGet_none (by simp [alookup]) hdg
        subst hxs
        rw [if_neg (by simp [strMem]), hnone] at h
        simp at h
      · refine ⟨pj, xs, hsome, hdg, ?_⟩
        split at h
        · rename_i hm
          left
          exact ⟨hm, by injection h with h2; exact h2.symm⟩
        · rename_i hm
          rw [hsome] at h
          right
          refine ⟨by simpa using hm, ?_⟩
          injection h with h2
          exact h2.symm

/-- Shape of a successful entry-point step. -/
theorem scripts_phase_ok {doc : TomlTable} {pkg bin : String} {d : TomlTable}
    (h : scripts_phase doc pkg bin = .ok d) :
    ∃ pj scr, alookup doc "project" = some (Toml.table pj) ∧
      alookup (scriptsEnsure pj) "scripts" = some (Toml.table scr) ∧
      d = aset doc "project" (Toml.table (aset (scriptsEnsure pj) "scripts"
            (Toml.table (aset scr bin (Toml.str (pkg ++ ".main:main")))))) := by
  unfold scripts_phase at h
  split at h
  · simp at h
  · rename_i pj hp
    split at h
    · rename_i scr hs
      refine ⟨pj, scr, hp, hs, ?_⟩
      injection h with h2
      exact h2.symm
    · simp at h
    · simp at h
  · simp at h

/-- A second dependency step on a document already holding the entry is the
identity. -/
theorem deps_phase_fix {doc pj : TomlTable} {xs : List Toml} {entry : String}
    (hp : alookup doc "project" = some (Toml.table pj))
    (hd : alookup pj "dependencies" = some (Toml.arr xs))
    (hm : strMem entry xs = true) : deps_phase doc entry = .ok doc := by
  simp [deps_phase, projGet, depsGet, hp, hd, hm]

/-- A second entry-point step on a document already holding the mapping is
the identity. -/
theorem scripts_phase_fix {doc pj scr : TomlTable} {pkg bin : String}
    (hp : alookup doc "project" = some (Toml.table pj))
    (hs : alookup pj "scripts" = some (Toml.table scr))
    (hb : alookup scr bin = some (Toml.str (pkg ++ ".main:main"))) :
    scripts_phase doc pkg bin = .ok doc := by
  have hens : scriptsEnsure pj = pj := by simp [scriptsEnsure, hs]
  have h1 : aset scr bin (Toml.str (pkg ++ ".main:main")) = scr :=
    aset_eq_of_alookup _ _ _ hb
  have h2 : aset pj "scripts" (Toml.table scr) = pj :=
    aset_eq_of_alookup _ _ _ hs
  have h3 : aset doc "project" (Toml.table pj) = doc :=
    aset_eq_of_alookup _ _ _ hp
  simp [scripts_phase, hp, hens, hs, h1, h2, h3]

/-- The scriptsEnsure helper touches only the scripts key. -/
theorem scriptsEnsure_lookup_ne {pj : TomlTable} {k : String} (h : k ≠ "scripts") :
    alookup (scriptsEnsure pj) k = alookup pj k := by
  unfold scriptsEnsure
  split
  · rfl
  · exact alookup_aset_ne _ _ h

theorem depsGet_ok {pj : TomlTable} {xs : List Toml} (h : depsGet pj = .ok xs) :
    (alookup pj "dependencies" = none ∧ xs = []) ∨
      alookup pj "dependencies" = some (Toml.arr xs) := by
  unfold depsGet at h
  split at h <;> simp_all

theorem projOf_some {doc pj : TomlTable}
    (hp : alookup doc "project" = some (Toml.table pj)) : projOf doc = some pj := by
  simp [projOf, hp]

theorem projLookup_eq {doc pj : TomlTable}
    (hp : alookup doc "project" = some (Toml.table pj)) (k : String) :
    projLookup doc k = alookup pj k := by
  simp [projLookup, projOf_some hp]

theorem depsOf_arr {doc pj : TomlTable} {xs : List Toml}
    (hp : alookup doc "project" = some (Toml.table pj))
    (hd : alookup pj "dependencies" = some (Toml.arr xs)) : depsOf doc = xs := by
  simp [depsOf, projLookup_eq hp, hd]

theorem scriptsLookup_table {doc pj scr : TomlTable}
    (hp : alookup doc "project" = some (Toml.table pj))
    (hs : alookup pj "scripts" = some (Toml.table scr)) (b : String) :
    scriptsLookup doc b = alookup scr b := by
  simp [scriptsLookup, projLookup_eq hp, hs]

theorem scriptsLookup_none {doc pj : TomlTable}
    (hp : alookup doc "project" = some (Toml.table pj))
    (hs : alookup pj "scripts" = none) (b : String) :
    scriptsLookup doc b = none := by
  simp [scriptsLookup, projLookup_eq hp, hs]

/-- Everything a successful umbrella document update guarantees: the entry
point is set, the entry is appended exactly when absent, the composed entry
is a member afterwards, all untouched keys are preserved, and the final
document exposes its project, dependency and scripts structure. -/
theorem update_ok_spec {doc : TomlTable} {pkg bin url : String} {d : TomlTable}
    (h : update_umbrella_deps_bin_doc doc pkg bin url = .ok d) :
    scriptsLookup d bin = some (Toml.str (pkg ++ ".main:main")) ∧
    depsOf d = depsOf doc ++
      (if strMem (pkg ++ " @ " ++ url) (depsOf doc) then []
       else [Toml.str (pkg ++ " @ " ++ url)]) ∧
    strMem (pkg ++ " @ " ++ url) (depsOf d) = true ∧
    (∀ k, k ≠ "project" → alookup d k = alookup doc k) ∧
    (∀ k, k ≠ "dependencies" → k ≠ "scripts" →
      projLookup d k = projLookup doc k) ∧
    (∀ b, b ≠ bin → scriptsLookup d b = scriptsLookup doc b) ∧
    (∃ pj2 scr2, alookup d "project" = some (Toml.table pj2) ∧
      alookup pj2 "dependencies" = some (Toml.arr (depsOf d)) ∧
      alookup pj2 "scripts" = some (Toml.table scr2) ∧
      alookup scr2 bin = some (Toml.str (pkg ++ ".main:main"))) := by
  set entry := pkg ++ " @ " ++ url with hE
  unfold update_umbrella_deps_bin_doc at h
  split at h
  · simp at h
  · rename_i doc1 h1
    obtain ⟨pj, xs, hp, hdg, hbr⟩ := deps_phase_ok h1
    have hdoc_deps : depsOf doc = xs := depsOf_eq hp hdg
    -- unified description of the intermediate document
    obtain ⟨pj1, hp1, hdep1, hmem1, hval1, hframe1, hpframe1⟩ :
        ∃ pj1, alookup doc1 "project" = some (Toml.table pj1) ∧
          alookup pj1 "dependencies" =
            some (Toml.arr (xs ++ (if strMem entry xs then [] else [Toml.str entry]))) ∧
          strMem entry (xs ++ (if strMem entry xs then [] else [Toml.str entry])) = true ∧
          True ∧
          (∀ k, k ≠ "project" → alookup doc1 k = alookup doc k) ∧
          (∀ k, k ≠ "dependencies" → alookup pj1 k = alookup pj k) := by
      rcases hbr with ⟨hm, hd1⟩ | ⟨hm, hd1⟩
      · subst hd1
        have harr : alookup pj "dependencies" = some (Toml.arr xs) := by
          rcases depsGet_ok hdg with ⟨hnone, hxs⟩ | harr
          · subst hxs
            simp [strMem] at hm
          · exact harr
        exact ⟨pj, hp, by simp [hm, harr], by simp [hm], trivial,
          fun k _ => rfl, fun k _ => rfl⟩
      · subst hd1
        refine ⟨aset pj "dependencies" (Toml.arr (xs ++ [Toml.str entry])),
          alookup_aset_self _ _ _, ?_, ?_, trivial, ?_, ?_⟩
        · simp [hm, alookup_aset_self]
        · simp [hm, strMem_append_self]
        · intro k hk
          exact alookup_aset_ne _ _ hk
        · intro k hk
          exact alookup_aset_ne _ _ hk
    clear hval1
    obtain ⟨pjS, scr, hpS, hsS, hdS⟩ := scripts_phase_ok h
    have hpjS : pj1 = pjS := by
      rw [hp1] at hpS
      simpa using hpS
    subst hpjS
    subst hdS
    -- names for the final layers
    have G1 : alookup (aset doc1 "project"
        (Toml.table (aset (scriptsEnsure pj1) "scripts"
          (Toml.table (aset scr bin (Toml.str (pkg ++ ".main:main"))))))) "project" =
        some (Toml.table (aset (scriptsEnsure pj1) "scripts"
          (Toml.table (aset scr bin (Toml.str (pkg ++ ".main:main")))))) :=
      alookup_aset_self _ _ _
    have G2 : alookup (aset (scriptsEnsure pj1) "scripts"
        (Toml.table (aset scr bin (Toml.str (pkg ++ ".main:main"))))) "scripts" =
        some (Toml.table (aset scr bin (Toml.str (pkg ++ ".main:main")))) :=
      alookup_aset_self _ _ _
    have G3 : alookup (aset scr bin (Toml.str (pkg ++ ".main:main"))) bin =
        some (Toml.str (pkg ++ ".main:main")) := alookup_aset_self _ _ _
    have G4 : alookup (aset (scriptsEnsure pj1) "scripts"
        (Toml.table (aset scr bin (Toml.str (pkg ++ ".main:main"))))) "dependencies" =
        some (Toml.arr (xs ++ (if strMem entry xs then [] else [Toml.str entry]))) := by
      rw [alookup_aset_ne _ _ (by decide), scriptsEnsure_lookup_ne (by decide), hdep1]
    have hdepsD : depsOf (aset doc1 "project"
        (Toml.table (aset (scriptsEnsure pj1) "scripts"
          (Toml.table (aset scr bin (Toml.str (pkg ++ ".main:main"))))))) =
        xs ++ (if strMem entry xs then [] else [Toml.str entry]) :=
      depsOf_arr G1 G4
    refine ⟨?_, ?_, ?_, ?_, ?_, ?_, ?_⟩
    · exact (scriptsLookup_table G1 G2 bin).trans G3
    · rw [hdepsD, hdoc_deps]
    · rw [hdepsD]
      exact hmem1
    · intro k hk
      rw [alookup_aset_ne _ _ hk, hframe1 k hk]
    · intro k hk1 hk2
      rw [projLookup_eq G1, projLookup_eq hp,
        alookup_aset_ne _ _ hk2, scriptsEnsure_lookup_ne hk2, hpframe1 k hk1]
    · intro b hb
      have hstep : scriptsLookup (aset doc1 "project"
          (Toml.table (aset (scriptsEnsure pj1) "scripts"
            (Toml.table (aset scr bin (Toml.str (pkg ++ ".main:main"))))))) b =
          alookup scr b := by
        rw [scriptsLookup_table G1 G2 b, alookup_aset_ne _ _ hb]
      rw [hstep]
      have hsc : alookup pj "scripts" = alookup pj1 "scripts" :=
        (hpframe1 "scripts" (by decide)).symm
      by_cases hpres : (alookup pj1 "scripts").isSome
      · obtain ⟨w, hw⟩ := Option.isSome_iff_exists.mp hpres
        have hens : scriptsEnsure pj1 = pj1 := by simp [scriptsEnsure, hw]
        rw [hens] at hsS
        rw [hsS] at hw
        cases hw
        rw [scriptsLookup_table hp (hsc.trans hsS) b]
      · have hnone : alookup pj1 "scripts" = none := by
          cases hh : alookup pj1 "scripts"
          · rfl
          · rw [hh] at hpres; simp at hpres
        have hens : scriptsEnsure pj1 = aset pj1 "scripts" (Toml.table []) := by
          simp [scriptsEnsure, hnone]
        rw [hens, alookup_aset_self] at hsS
        have hscr : scr = [] := by
          injection hsS with h2
          injection h2.symm
        subst hscr
        rw [scriptsLookup_none hp (hsc.trans hnone) b]
        simp [alookup]
    · exact ⟨_, _, G1, by rw [hdepsD]; exact G4, G2, G3⟩

/-- A second umbrella update with the same arguments is the identity. -/
theorem update_fix {doc : TomlTable} {pkg bin url : String} {d : TomlTable}
    (h : update_umbrella_deps_bin_doc doc pkg bin url = .ok d) :
    update_umbrella_deps_bin_doc d pkg bin url = .ok d := by
  obtain ⟨-, -, hmem, -, -, -, pj2, scr2, hP, hD, hS, hB⟩ := update_ok_spec h
  have hdf : deps_phase d (pkg ++ " @ " ++ url) = .ok d := deps_phase_fix hP hD hmem
  have hsf : scripts_phase d pkg bin = .ok d := scripts_phase_fix hP hS hB
  simp [update_umbrella_deps_bin_doc, hdf, hsf]

/-- Appending different suffixes to the same string gives different strings. -/
theorem append_right_ne (a : String) {s t : String} (h : ¬ s.data = t.data) :
    ¬ (a ++ s = a ++ t) := by
  intro hh
  apply h
  have h2 : a.data ++ s.data = a.data ++ t.data := congrArg String.data hh
  exact List.append_cancel_left h2

/-- C1: running the umbrella registration twice for the same script with the
same umbrella document and giturl pattern returns the first result
unchanged: the composed dependency string is already a member on the second
run, nothing is appended again, and no entry is removed or reordered. -/
theorem register_script_idempotent (doc d1 : TomlTable) (script pat : String)
    (h : register_script doc script pat = .ok d1) :
    register_script d1 script pat = .ok d1 ∧
    strMem (get_pkg_name script ++ " @ " ++ pyFormatRepo pat (get_bin_name script))
      (depsOf d1) = true := by
  unfold register_script at h ⊢
  obtain ⟨-, -, hmem, -, -, -, -⟩ := update_ok_spec h
  exact ⟨update_fix h, hmem⟩

/-- C1 witness: a concrete first registration, rerun on its own result. -/
theorem register_script_idempotent_witness :
    register_script c1doc "t.py" "u" = .ok c1res ∧
    (register_script c1res "t.py" "u" = .ok c1res ∧
     strMem (get_pkg_name "t.py" ++ " @ " ++ pyFormatRepo "u" (get_bin_name "t.py"))
       (depsOf c1res) = true) :=
  ⟨rfl, register_script_idempotent c1doc c1res "t.py" "u" rfl⟩

/-- C2: the claim says a missing pkg_dir/.gitignore is created with content
star-tilde-newline and committed; the code instead opens the missing file
in the default read mode, which raises FileNotFoundError, so on a package
missing only .gitignore the whole migration run errors out and neither
creates the file nor commits. -/
theorem migrate_missing_gitignore_raises :
    migrate_one none "git+https://example.com/{repo}" orcAllOk fsBug "mytool.py" =
      .error (PyErr.fileNotFoundError "mytool/.gitignore") := rfl

/-- C3: the package name is the filename stem with every hyphen replaced by
an underscore, hence never contains a hyphen, and the command name is the
stem unchanged. -/
theorem pkg_name_underscored (p : String) :
    get_pkg_name p = pyReplaceChar (pyStem (pathName p)) '-' '_' ∧
    get_bin_name p = pyStem (pathName p) ∧
    '-' ∉ (get_pkg_name p).data := by
  refine ⟨rfl, rfl, ?_⟩
  intro hmem
  rcases List.mem_map.1 hmem with ⟨c, -, hc⟩
  by_cases h : c = '-'
  · rw [if_pos h] at hc
    exact absurd hc (by decide)
  · rw [if_neg h] at hc
    exact h hc

/-- C4: after a successful update the entry-point mapping at the command
name holds exactly pkg_name.main:main, whatever was stored there before,
both in the umbrella manifest and in the per-package manifest. -/
theorem entry_point_overwritten (doc docL d dL : TomlTable) (pkg bin url : String)
    (h1 : update_umbrella_deps_bin_doc doc pkg bin url = .ok d)
    (h2 : update_local_manifest docL pkg bin = .ok dL) :
    scriptsLookup d bin = some (Toml.str (pkg ++ ".main:main")) ∧
    scriptsLookup dL bin = some (Toml.str (pkg ++ ".main:main")) := by
  refine ⟨(update_ok_spec h1).1, ?_⟩
  unfold update_local_manifest at h2
  split at h2
  · simp at h2
  · rename_i d0 hr
    obtain ⟨pj, scr, hp, hs, hd⟩ := scripts_phase_ok h2
    subst hd
    exact (scriptsLookup_table (alookup_aset_self _ _ _)
      (alookup_aset_self _ _ _) bin).trans (alookup_aset_self _ _ _)

/-- C4 witness: a document whose scripts mapping already binds the command
name to an old target, updated both ways. -/
theorem entry_point_overwritten_witness :
    update_umbrella_deps_bin_doc c4doc "t" "t" "u" = .ok c4res ∧
    update_local_manifest c4doc "t" "t" = .ok c4resL ∧
    (scriptsLookup c4res "t" = some (Toml.str ("t" ++ ".main:main")) ∧
     scriptsLookup c4resL "t" = some (Toml.str ("t" ++ ".main:main"))) :=
  ⟨rfl, rfl, entry_point_overwritten c4doc c4doc c4res c4resL "t" "t" "u" rfl rfl⟩

/-- C5 counterexample: on an umbrella manifest already holding both the
dependency entry and the entry point, nothing changes (the resulting
filesystem is the input filesystem), yet the manifest file is still written
back, refuting writes-only-if-changed. -/
theorem umbrella_writes_without_change :
    update_umbrella_deps_bin c5fs "umb/pyproject.toml" "t" "t" "u" =
      .ok (c5fs, true) := rfl

/-- C5 amended: the update loads the document, reads the dependency list
defaulting to empty, appends the composed entry exactly when it is not
already a member under exact string equality, and writes the manifest back
unconditionally on every successful run. -/
theorem umbrella_update_append_if_absent (fs fs2 : FS)
    (pp pkg bin url : String) (wrote : Bool) (doc d : TomlTable)
    (hread : readTomlFile fs pp = .ok doc)
    (hupd : update_umbrella_deps_bin_doc doc pkg bin url = .ok d)
    (h : update_umbrella_deps_bin fs pp pkg bin url = .ok (fs2, wrote)) :
    wrote = true ∧ fs2 = writeFile fs pp (File.toml d) ∧
    depsOf d = depsOf doc ++
      (if strMem (pkg ++ " @ " ++ url) (depsOf doc) then []
       else [Toml.str (pkg ++ " @ " ++ url)]) := by
  unfold update_umbrella_deps_bin at h
  rw [hread] at h
  simp only [] at h
  rw [hupd] at h
  simp only [Except.ok.injEq, Prod.mk.injEq] at h
  exact ⟨h.2.symm, h.1.symm, (update_ok_spec hupd).2.1⟩

/-- C5 witness: a fresh umbrella gains the entry and the file is written. -/
theorem umbrella_update_append_if_absent_witness :
    readTomlFile c5fs2 "u/pyproject.toml" = .ok c5doc2 ∧
    update_umbrella_deps_bin_doc c5doc2 "t" "t" "u" = .ok c5doc2res ∧
    update_umbrella_deps_bin c5fs2 "u/pyproject.toml" "t" "t" "u" =
      .ok (writeFile c5fs2 "u/pyproject.toml" (File.toml c5doc2res), true) ∧
    (true = true ∧
     writeFile c5fs2 "u/pyproject.toml" (File.toml c5doc2res) =
       writeFile c5fs2 "u/pyproject.toml" (File.toml c5doc2res) ∧
     depsOf c5doc2res = depsOf c5doc2 ++
       (if strMem ("t" ++ " @ " ++ "u") (depsOf c5doc2) then []
        else [Toml.str ("t" ++ " @ " ++ "u")])) :=
  ⟨rfl, rfl, rfl,
   umbrella_update_append_if_absent c5fs2 _ "u/pyproject.toml" "t" "t" "u"
     true c5doc2 c5doc2res rfl rfl rfl⟩

/-- C6: a successful umbrella update changes at most project.dependencies
and project.scripts: any other top-level key and any other project key is
unchanged. -/
theorem umbrella_update_frame (doc d : TomlTable) (pkg bin url k k2 : String)
    (h : update_umbrella_deps_bin_doc doc pkg bin url = .ok d)
    (hk : k ≠ "project") (hk2 : k2 ≠ "dependencies") (hk3 : k2 ≠ "scripts") :
    alookup d k = alookup doc k ∧ projLookup d k2 = projLookup doc k2 := by
  obtain ⟨-, -, -, hframe, hpframe, -, -⟩ := update_ok_spec h
  exact ⟨hframe k hk, hpframe k2 hk2 hk3⟩

/-- C6 witness: unrelated keys at both levels survive a concrete update. -/
theorem umbrella_update_frame_witness :
    update_umbrella_deps_bin_doc c6doc "t" "t" "u" = .ok c6res ∧
    (alookup c6res "other" = alookup c6doc "other" ∧
     projLookup c6res "name" = projLookup c6doc "name") :=
  ⟨rfl, umbrella_update_frame c6doc c6res "t" "t" "u" "other" "name" rfl
    (by decide) (by decide) (by decide)⟩

/-- C7: subprocess.run with check=True turns every nonzero exit status into
an error, and an error from the per-script body aborts the whole run: the
remaining scripts of the input list are never processed and the failure is
returned as is. -/
theorem external_failure_aborts (orc : Oracle) (c : Cmd) (fs fs2 : FS)
    (reg : Option String) (pat s : String) (rest : List String) (e : PyErr)
    (hc : orc.exitCode c ≠ 0)
    (hm : migrate_one reg pat orc fs2 s = .error e) :
    runCheck orc c fs = .error (.calledProcessError c (orc.exitCode c)) ∧
    migrate_list reg pat orc fs2 (s :: rest) = .error e := by
  constructor
  · simp [runCheck, hc]
  · simp [migrate_list, hm]

/-- C7 witness: with an oracle whose invocations exit with status 1, the
first uv init fails and the second script is never processed. -/
theorem external_failure_aborts_witness :
    orcAllFail.exitCode (Cmd.gitInit "x") ≠ 0 ∧
    migrate_one none "{repo}" orcAllFail fsEmpty "tool.py" =
      .error (PyErr.calledProcessError (Cmd.uvInitPkg "tool") 1) ∧
    (runCheck orcAllFail (Cmd.gitInit "x") fsEmpty =
      .error (.calledProcessError (Cmd.gitInit "x")
        (orcAllFail.exitCode (Cmd.gitInit "x"))) ∧
     migrate_list none "{repo}" orcAllFail fsEmpty ["tool.py", "other.py"] =
      .error (PyErr.calledProcessError (Cmd.uvInitPkg "tool") 1)) :=
  ⟨by decide, rfl,
   external_failure_aborts orcAllFail (Cmd.gitInit "x") fsEmpty fsEmpty
     none "{repo}" "tool.py" ["other.py"]
     (PyErr.calledProcessError (Cmd.uvInitPkg "tool") 1) (by decide) rfl⟩

/-- C8: registering two scripts with distinct command names and distinct
composed entries into a fresh umbrella yields a dependency list holding
exactly the two composed entries with no duplicates, and a scripts mapping
binding both command names. -/
theorem two_scripts_distinct_entries (doc pj d1 d2 : TomlTable) (s1 s2 pat : String)
    (hp : alookup doc "project" = some (Toml.table pj))
    (hdep : alookup pj "dependencies" = none ∨
            alookup pj "dependencies" = some (Toml.arr []))
    (hbin : get_bin_name s1 ≠ get_bin_name s2)
    (hent : get_pkg_name s1 ++ " @ " ++ pyFormatRepo pat (get_bin_name s1) ≠
            get_pkg_name s2 ++ " @ " ++ pyFormatRepo pat (get_bin_name s2))
    (h1 : register_script doc s1 pat = .ok d1)
    (h2 : register_script d1 s2 pat = .ok d2) :
    depsOf d2 = [
      Toml.str (get_pkg_name s1 ++ " @ " ++ pyFormatRepo pat (get_bin_name s1)),
      Toml.str (get_pkg_name s2 ++ " @ " ++ pyFormatRepo pat (get_bin_name s2))] ∧
    (depsOf d2).Nodup ∧
    scriptsLookup d2 (get_bin_name s1) =
      some (Toml.str (get_pkg_name s1 ++ ".main:main")) ∧
    scriptsLookup d2 (get_bin_name s2) =
      some (Toml.str (get_pkg_name s2 ++ ".main:main")) := by
  unfold register_script at h1 h2
  have hdoc0 : depsOf doc = [] := by
    rcases hdep with hnone | harr
    · simp [depsOf, projLookup_eq hp, hnone]
    · simp [depsOf, projLookup_eq hp, harr]
  obtain ⟨hscr1, hdeps1, -, -, -, -, -⟩ := update_ok_spec h1
  obtain ⟨hscr2, hdeps2, -, -, -, hsframe2, -⟩ := update_ok_spec h2
  have hd1 : depsOf d1 =
      [Toml.str (get_pkg_name s1 ++ " @ " ++ pyFormatRepo pat (get_bin_name s1))] := by
    rw [hdeps1, hdoc0]
    simp [strMem]
  have hd2 : depsOf d2 = [
      Toml.str (get_pkg_name s1 ++ " @ " ++ pyFormatRepo pat (get_bin_name s1)),
      Toml.str (get_pkg_name s2 ++ " @ " ++ pyFormatRepo pat (get_bin_name s2))] := by
    rw [hdeps2, hd1]
    have hne : strMem
        (get_pkg_name s2 ++ " @ " ++ pyFormatRepo pat (get_bin_name s2))
        [Toml.str (get_pkg_name s1 ++ " @ " ++ pyFormatRepo pat (get_bin_name s1))] = false := by
      simp [strMem]
      exact Ne.symm hent
    rw [hne]
    simp
  refine ⟨hd2, ?_, ?_, hscr2⟩
  · rw [hd2]
    simp [hent]
  · rw [hsframe2 (get_bin_name s1) hbin]
    exact hscr1

/-- C8 witness: foo.py and bar.py registered into a fresh umbrella. -/
theorem two_scripts_distinct_entries_witness :
    register_script c8doc "foo.py" "git+https://example.com/{repo}" = .ok c8d1 ∧
    register_script c8d1 "bar.py" "git+https://example.com/{repo}" = .ok c8d2 ∧
    (depsOf c8d2 = [
      Toml.str (get_pkg_name "foo.py" ++ " @ " ++
        pyFormatRepo "git+https://example.com/{repo}" (get_bin_name "foo.py")),
      Toml.str (get_pkg_name "bar.py" ++ " @ " ++
        pyFormatRepo "git+https://example.com/{repo}" (get_bin_name "bar.py"))] ∧
     (depsOf c8d2).Nodup ∧
     scriptsLookup c8d2 (get_bin_name "foo.py") =
       some (Toml.str (get_pkg_name "foo.py" ++ ".main:main")) ∧
     scriptsLookup c8d2 (get_bin_name "bar.py") =
       some (Toml.str (get_pkg_name "bar.py" ++ ".main:main"))) :=
  ⟨rfl, rfl,
   two_scripts_distinct_entries c8doc
     [("name", Toml.str "umb"), ("dependencies", Toml.arr [])] c8d1 c8d2
     "foo.py" "bar.py" "git+https://example.com/{repo}" rfl (Or.inr rfl)
     (by decide) (by decide) rfl rfl⟩

/-- C9: when main.py is absent the written copy is the script text verbatim
when it contains def main(), and otherwise the script lines each indented
by four spaces under a def main() header with a dunder-main guard; when
main.py already exists nothing is modified. -/
theorem main_py_copy_or_wrap (fs fsE : FS) (script main_py scriptE main_pyE c : String)
    (hnew : fsExists fs main_py = false)
    (hread : pyReadText fs script = .ok c)
    (hex : fsExists fsE main_pyE = true) :
    setup_main_py fs script main_py = .ok (writeFile fs main_py (File.text
      (if containsSub "def main()" c then c
       else "def main():\n" ++
         joinLines ((pySplitlines c).map (fun line => "    " ++ line)) ++
         "\n\nif __name__ == \x27__main__\x27:\n    main()"))) ∧
    setup_main_py fsE scriptE main_pyE = .ok fsE := by
  constructor
  · by_cases hc : containsSub "def main()" c <;>
      simp [setup_main_py, hnew, hread, hc, wrapMain]
  · simp [setup_main_py, hex]

/-- C9 witness: a script without a main function is wrapped; an existing
main.py is untouched. -/
theorem main_py_copy_or_wrap_witness :
    fsExists c9fs "tool/src/tool/main.py" = false ∧
    pyReadText c9fs "tool.py" = .ok "print(1)\nprint(2)\n" ∧
    fsExists c9fsE "x/main.py" = true ∧
    (setup_main_py c9fs "tool.py" "tool/src/tool/main.py" =
      .ok (writeFile c9fs "tool/src/tool/main.py" (File.text
        (if containsSub "def main()" "print(1)\nprint(2)\n" then "print(1)\nprint(2)\n"
         else "def main():\n" ++
           joinLines ((pySplitlines "print(1)\nprint(2)\n").map
             (fun line => "    " ++ line)) ++
           "\n\nif __name__ == \x27__main__\x27:\n    main()"))) ∧
     setup_main_py c9fsE "x/main.py" "x/main.py" = .ok c9fsE) :=
  ⟨rfl, rfl, rfl,
   main_py_copy_or_wrap c9fs c9fsE "tool.py" "tool/src/tool/main.py"
     "x/main.py" "x/main.py" "print(1)\nprint(2)\n" rfl rfl rfl⟩

/-- C10: every run deletes pkg_dir/README.md when present, even on a fully
migrated package, before the README.org step; a fresh README.org is written
only when absent, and an existing README.org is left unchanged. -/
theorem readme_md_removed_org_kept (fs fsE : FS)
    (pkg_dir bin_name script_name pkg_dirE bin_nameE script_nameE : String)
    (habs : fsExists (unlinkFile fs (pkg_dir ++ "/README.md"))
      (pkg_dir ++ "/README.org") = false)
    (hex : fsExists (unlinkFile fsE (pkg_dirE ++ "/README.md"))
      (pkg_dirE ++ "/README.org") = true) :
    fileLookup (handle_readme fs pkg_dir bin_name script_name)
      (pkg_dir ++ "/README.md") = none ∧
    fileLookup (handle_readme fs pkg_dir bin_name script_name)
      (pkg_dir ++ "/README.org") =
      some (File.text ("* " ++ bin_name ++ "\n\nMigrated from `" ++ script_name ++ "`")) ∧
    fileLookup (handle_readme fsE pkg_dirE bin_nameE script_nameE)
      (pkg_dirE ++ "/README.md") = none ∧
    fileLookup (handle_readme fsE pkg_dirE bin_nameE script_nameE)
      (pkg_dirE ++ "/README.org") = fileLookup fsE (pkg_dirE ++ "/README.org") := by
  have hneMd : ¬ ((pkg_dir ++ "/README.md") = (pkg_dir ++ "/README.org")) :=
    append_right_ne pkg_dir (by decide)
  have hneMdE : ¬ ((pkg_dirE ++ "/README.md") = (pkg_dirE ++ "/README.org")) :=
    append_right_ne pkg_dirE (by decide)
  refine ⟨?_, ?_, ?_, ?_⟩
  · simp only [handle_readme, habs]
    simp [writeFile, unlinkFile, fileLookup,
      alookup_aset_ne _ _ hneMd, alookup_aerase_self]
  · simp only [handle_readme, habs]
    simp [writeFile, fileLookup, alookup_aset_self]
  · simp only [handle_readme, hex]
    simp [unlinkFile, fileLookup, alookup_aerase_self]
  · simp only [handle_readme, hex]
    simp [unlinkFile, fileLookup, alookup_aerase_ne _ (Ne.symm hneMdE)]

/-- C10 witness: a stale README.md disappears in both scenarios, README.org
is created when absent and kept when present. -/
theorem readme_md_removed_org_kept_witness :
    fsExists (unlinkFile c10fs ("p" ++ "/README.md")) ("p" ++ "/README.org") = false ∧
    fsExists (unlinkFile c10fsE ("q" ++ "/README.md")) ("q" ++ "/README.org") = true ∧
    (fileLookup (handle_readme c10fs "p" "b" "b.py") ("p" ++ "/README.md") = none ∧
     fileLookup (handle_readme c10fs "p" "b" "b.py") ("p" ++ "/README.org") =
       some (File.text ("* " ++ "b" ++ "\n\nMigrated from `" ++ "b.py" ++ "`")) ∧
     fileLookup (handle_readme c10fsE "q" "b" "b.py") ("q" ++ "/README.md") = none ∧
     fileLookup (handle_readme c10fsE "q" "b" "b.py") ("q" ++ "/README.org") =
       fileLookup c10fsE ("q" ++ "/README.org")) :=
  ⟨rfl, rfl,
   readme_md_removed_org_kept c10fs c10fsE "p" "b" "b.py" "q" "b" "b.py" rfl rfl⟩

end P2P
